import Mathlib

/-!
Verification of the "Physics Momentum" market-data and signal engine
(`src/analysis.js`).  The repository ships two variants of the engine in that
file: the first one (referred to below as `V1`) with `fetchCandlesFallback`,
`computeRSI`, `sma`, `rollingStd`, `computeATR` and a confidence score, and the
second one (`V2`) with `fetchCandlesMulti`, `rsiFromArray`, `smaO`/`stddev`,
`atrFromCandles` and `computeVelocityAcceleration`.  Both are embedded here
over exact rationals (ℚ); the only irrational operation, `Math.sqrt` inside the
Bollinger standard deviation, is modelled by `Real.sqrt` applied to the
rational variance.  Network access is modelled by passing the per-provider
parsed payloads (`Option (List Candle)`, `none` = network error, timeout or
malformed response) to the fetch functions.
-/

set_option maxRecDepth 4000000

/- Batteries marks the core rational arithmetic `@[irreducible]`; re-allow
unfolding so that concrete indicator computations can be settled by kernel
evaluation (`decide`). -/
attribute [local semireducible] Rat.mul Rat.add Rat.sub Rat.inv Rat.ofScientific

namespace PhysicsMomentum

/-- One OHLCV observation, as produced by the candle normalizer
(`{ t, open, high, low, close, vol }` in the source; `open` is a Lean keyword,
so that field is called `opn`). -/
structure Candle where
  t : ℚ
  opn : ℚ
  high : ℚ
  low : ℚ
  close : ℚ
  vol : ℚ
deriving DecidableEq, Repr

/-- Signal direction ('LONG' / 'SHORT' strings in the source). -/
inductive Side where
  | long
  | short
deriving DecidableEq, Repr

/-- `candles.map(c => Number(c.close))`; `Number` on an already numeric field
is the identity. -/
def closesOf (cs : List Candle) : List ℚ := cs.map (fun c => c.close)

/-- `candles.map(c => Number(c.high))`. -/
def highsOf (cs : List Candle) : List ℚ := cs.map (fun c => c.high)

/-- `candles.map(c => Number(c.low))`. -/
def lowsOf (cs : List Candle) : List ℚ := cs.map (fun c => c.low)

/-- `idx = closes.length - 1` (the last index inspected by the engine). -/
def lastIdx (cs : List Candle) : ℕ := cs.length - 1

/-- `lastClose = closes[idx]`. -/
def lastCloseOf (cs : List Candle) : ℚ := (closesOf cs).getD (lastIdx cs) 0

/-- Successive differences `closes[i] - closes[i-1]` (the `deltas`/`changes`
arrays built by both RSI implementations). -/
def deltasOf (prices : List ℚ) : List ℚ :=
  List.zipWith (fun a b => a - b) (prices.drop 1) prices

/-- JS `x || null` applied to a number: `0` (and `NaN`, which over exact
rationals only arises as `0/0 = 0`) is falsy and becomes `null`. -/
def jsOrNull (q : ℚ) : Option ℚ := if q = 0 then none else some q

/-- JS `Number` applied to a number-or-null: `Number(null) = 0`. -/
def jsNumberOfNull : Option ℚ → ℚ
  | none => 0
  | some q => q

/-- JS `Number(x.toFixed(2))`: round to two decimal places.  `toFixed` picks
the closer decimal and, on ties, the larger one, i.e. it rounds half towards
`+∞`, which is exactly Mathlib's `round`. -/
def jsToFixed2 (q : ℚ) : ℚ := ((round (q * 100) : ℤ) : ℚ) / 100

/-- `sl = entry - 1.5 * atr` for LONG, `entry + 1.5 * atr` for SHORT
(identical in both variants). -/
def slOf (s : Side) (entry atr : ℚ) : ℚ :=
  if s = Side.long then entry - 1.5 * atr else entry + 1.5 * atr

/-- `tp = entry + 3.0 * atr` for LONG, `entry - 3.0 * atr` for SHORT
(identical in both variants). -/
def tpOf (s : Side) (entry atr : ℚ) : ℚ :=
  if s = Side.long then entry + 3.0 * atr else entry - 3.0 * atr

/-- `Math.abs(tp - entry) / Math.abs(entry - sl)` (identical in both
variants).  In JS the only reachable zero-denominator case is `0/0 = NaN`
(numerator and denominator both vanish exactly when `atr = 0`); rational
division by zero also yields `0`, and both are falsy, so the subsequent
`|| null` agrees in the two semantics. -/
def rr0Of (entry sl tp : ℚ) : ℚ := |tp - entry| / |entry - sl|

/-! ### Wilder gain/loss smoothing (shared by both RSI implementations)

Both variants run the identical update
`avg = (avg * (period - 1) + new) / period` with
`gain = d > 0 ? d : 0` and `loss = d < 0 ? |d| : 0`; only the seeding loop
differs syntactically (`d >= 0` in V1 vs `v > 0` in V2 — numerically equal,
since `d = 0` contributes `0` either way). -/

/-- One step of Wilder smoothing of the (average gain, average loss) pair. -/
def wilderStep (period : ℕ) (gl : ℚ × ℚ) (d : ℚ) : ℚ × ℚ :=
  ((gl.1 * ((period : ℚ) - 1) + (if d > 0 then d else 0)) / (period : ℚ),
   (gl.2 * ((period : ℚ) - 1) + (if d < 0 then -d else 0)) / (period : ℚ))

/-- V1 seed: `if (d >= 0) gains += d; else losses += Math.abs(d)`. -/
def seedGainsV1 (ds : List ℚ) : ℚ := (ds.map (fun d => if 0 ≤ d then d else 0)).sum

/-- V1 seed losses. -/
def seedLossesV1 (ds : List ℚ) : ℚ := (ds.map (fun d => if 0 ≤ d then 0 else -d)).sum

/-- V2 seed: `if (v > 0) gains += v; else losses += Math.abs(v)`. -/
def seedGainsV2 (ds : List ℚ) : ℚ := (ds.map (fun d => if 0 < d then d else 0)).sum

/-- V2 seed losses. -/
def seedLossesV2 (ds : List ℚ) : ℚ := (ds.map (fun d => if 0 < d then 0 else -d)).sum

/-- The running (average gain, average loss) pairs of V1's `computeRSI`:
entry `k` is the pair used for the RSI value at price index `period + k`
(seed at `k = 0`, then one `wilderStep` per further delta). -/
def wilderAvgsV1 (prices : List ℚ) (period : ℕ) : List (ℚ × ℚ) :=
  let ds := deltasOf prices
  (ds.drop period).scanl (wilderStep period)
    (seedGainsV1 (ds.take period) / (period : ℚ),
     seedLossesV1 (ds.take period) / (period : ℚ))

/-- The running (average gain, average loss) pairs of V2's `rsiFromArray`. -/
def wilderAvgsV2 (prices : List ℚ) (period : ℕ) : List (ℚ × ℚ) :=
  let ds := deltasOf prices
  (ds.drop period).scanl (wilderStep period)
    (seedGainsV2 (ds.take period) / (period : ℚ),
     seedLossesV2 (ds.take period) / (period : ℚ))

/-- V1 `computeRSI(prices, period)`: `null` before index `period`, then
`rs = avgLoss === 0 ? 100 : avgGain / avgLoss` and `100 - 100/(1 + rs)`.
Note that in the `avgLoss === 0` branch this yields `100 - 100/101`, not
`100`. -/
def computeRSI (prices : List ℚ) (period : ℕ) : List (Option ℚ) :=
  if prices.length < period + 1 then List.replicate prices.length none
  else
    List.replicate period none ++
      (wilderAvgsV1 prices period).map (fun gl =>
        some (100 - 100 / (1 + (if gl.2 = 0 then 100 else gl.1 / gl.2))))

/-- V2 `rsiFromArray(closes, period)`: `null` before index `period`, then
`avgLoss === 0 ? 100 : 100 - 100/(1 + avgGain/avgLoss)`. -/
def rsiFromArray (closes : List ℚ) (period : ℕ) : List (Option ℚ) :=
  if (deltasOf closes).length < period then List.replicate closes.length none
  else
    List.replicate period none ++
      (wilderAvgsV2 closes period).map (fun gl =>
        some (if gl.2 = 0 then 100 else 100 - 100 / (1 + gl.1 / gl.2)))

/-- V1 `sma(arr, period)`: mean over `arr.slice(max(0, i-period+1), i+1)`,
divided by the window's own (possibly short) length — a partial mean during
warm-up, never `null`.  (`Number(b) || 0` inside the reduce is the identity
on rationals.) -/
def sma (arr : List ℚ) (period : ℕ) : List ℚ :=
  (List.range arr.length).map (fun i =>
    let win := (arr.take (i + 1)).drop (i + 1 - period)
    win.sum / (win.length : ℚ))

/-- The rational part of V1 `rollingStd(arr, period)`: population variance
over the same truncated window as `sma`. -/
def rollingVar (arr : List ℚ) (period : ℕ) : List ℚ :=
  (List.range arr.length).map (fun i =>
    let win := (arr.take (i + 1)).drop (i + 1 - period)
    let mean := win.sum / (win.length : ℚ)
    (win.map (fun b => (b - mean) ^ 2)).sum / (win.length : ℚ))

/-- V1 `rollingStd`: `Math.sqrt` of the rolling variance. -/
noncomputable def rollingStd (arr : List ℚ) (period : ℕ) : List ℝ :=
  (rollingVar arr period).map (fun (v : ℚ) => Real.sqrt (v : ℝ))

/-- True ranges `max(high-low, |high - prevClose|, |low - prevClose|)` for
indices `1 .. closes.length-1` (identical loop in both variants), carrying the
previous close through the recursion. -/
def trsAux (prevC : ℚ) : List ℚ → List ℚ → List ℚ → List ℚ
  | h :: hs, l :: ls, c :: cs =>
      max (h - l) (max |h - prevC| |l - prevC|) :: trsAux c hs ls cs
  | _, _, _ => []

/-- The `trs` array built by both ATR implementations. -/
def trueRanges (highs lows closes : List ℚ) : List ℚ :=
  match closes with
  | [] => []
  | c :: cs => trsAux c (highs.drop 1) (lows.drop 1) cs

/-- The Wilder ATR chain shared by both variants: seed = mean of the first
`period` true ranges, then `atr = (prev * (period-1) + tr) / period`; entry
`k` of the result belongs to close index `period + k`. -/
def atrChain (trs : List ℚ) (period : ℕ) : List ℚ :=
  (trs.drop period).scanl
    (fun prev tr => (prev * ((period : ℚ) - 1) + tr) / (period : ℚ))
    ((trs.take period).sum / (period : ℚ))

/-- V1 `computeATR(highs, lows, closes, period)`.  When `trs.length < period`
it broadcasts the simple mean of the available true ranges
(`trs.length || 1` guards the empty case); otherwise it fills the leading
`null`s with the first non-null entry (`atrs.find(x => x !== null) || 0`),
which is the seed value. -/
def computeATR (highs lows closes : List ℚ) (period : ℕ) : List ℚ :=
  let trs := trueRanges highs lows closes
  if trs.length < period then
    List.replicate closes.length
      (trs.sum / (if trs.length = 0 then (1 : ℚ) else (trs.length : ℚ)))
  else
    let atrsOpt : List (Option ℚ) :=
      List.replicate period none ++ (atrChain trs period).map some
    let fill := (atrsOpt.filterMap id).headD 0
    atrsOpt.map (fun x => x.getD fill)

/-- V2 `atrFromCandles(highs, lows, closes, period)`: all-`null` when
`trs.length < period`, otherwise `null` before index `period` and the Wilder
chain afterwards. -/
def atrFromCandles (highs lows closes : List ℚ) (period : ℕ) : List (Option ℚ) :=
  let trs := trueRanges highs lows closes
  if trs.length < period then List.replicate closes.length none
  else List.replicate period none ++ (atrChain trs period).map some

/-- The shape `x[0] - x[0]` followed by successive differences: V1's
`priceChanges` loop (`prev = i === 0 ? closes[0] : closes[i-1]`, so index 0
gets `closes[0] - closes[0] = 0`) and V1's acceleration loop
(`i === 0 ? 0 : v[i] - v[i-1]`) both have this form. -/
def jsZeroThenDiffs (l : List ℚ) : List ℚ :=
  match l with
  | [] => []
  | _ => 0 :: deltasOf l

/-! ### V2 indicator helpers -/

/-- V2 `sma(arr, len)`: `null` while `i + 1 < len`, otherwise the mean of
`arr.slice(i - len + 1, i + 1)` divided by `len`. -/
def smaO (arr : List ℚ) (len : ℕ) : List (Option ℚ) :=
  (List.range arr.length).map (fun i =>
    if i + 1 < len then none
    else some (((arr.take (i + 1)).drop (i + 1 - len)).sum / (len : ℚ)))

/-- The rational part of V2 `stddev(arr, len)`: `null` while `i + 1 < len`,
otherwise the population variance of the full window (mean and variance both
divided by `len`). -/
def stddevVarO (arr : List ℚ) (len : ℕ) : List (Option ℚ) :=
  (List.range arr.length).map (fun i =>
    if i + 1 < len then none
    else
      let win := (arr.take (i + 1)).drop (i + 1 - len)
      let mean := win.sum / (len : ℚ)
      some ((win.map (fun b => (b - mean) ^ 2)).sum / (len : ℚ)))

/-- V2 `stddev`: `Math.sqrt` of the variance where defined. -/
noncomputable def stddevO (arr : List ℚ) (len : ℕ) : List (Option ℝ) :=
  (stddevVarO arr len).map (fun o => o.map (fun (v : ℚ) => Real.sqrt (v : ℝ)))

/-- V2 `computeVelocityAcceleration`: the price-change array starts with a
literal `null` (`const pc = [null]`). -/
def pcV2 (closes : List ℚ) : List (Option ℚ) := none :: (deltasOf closes).map some

/-- V2 velocity: `null` for `i < 2`, otherwise
`((pc[i] || 0) + (pc[i-1] || 0) + (pc[i-2] || 0)) / 3` (a `null` price change
is coerced to `0` by `|| 0`). -/
def vV2 (closes : List ℚ) : List (Option ℚ) :=
  let pc := pcV2 closes
  (List.range pc.length).map (fun i =>
    if i < 2 then none
    else some (((pc.getD i none).getD 0 + (pc.getD (i - 1) none).getD 0
        + (pc.getD (i - 2) none).getD 0) / 3))

/-- V2 acceleration: `a = [null]`, then `v[i] - v[i-1]` when both are
defined, `null` otherwise. -/
def aV2 (closes : List ℚ) : List (Option ℚ) :=
  let v := vV2 closes
  none :: (List.range (v.length - 1)).map (fun j =>
    match v.getD (j + 1) none, v.getD j none with
    | some x, some y => some (x - y)
    | _, _ => none)

/-! ### Bollinger bands -/

/-- V1 `upperBB = sma20.map((m, idx) => m + 2 * (std20[idx] || 0))`; the
`|| 0` coercion is modelled by the `getD 0` default. -/
noncomputable def upperBBV1 (closes : List ℚ) : List ℝ :=
  (List.range closes.length).map (fun i =>
    (((sma closes 20).getD i 0 : ℚ) : ℝ) + 2 * (rollingStd closes 20).getD i 0)

/-- V1 `lowerBB = sma20.map((m, idx) => m - 2 * (std20[idx] || 0))`. -/
noncomputable def lowerBBV1 (closes : List ℚ) : List ℝ :=
  (List.range closes.length).map (fun i =>
    (((sma closes 20).getD i 0 : ℚ) : ℝ) - 2 * (rollingStd closes 20).getD i 0)

/-- V2 `bbUpper = ma20Arr.map((m,i) => m === null ? null : m + 2 * sd20Arr[i])`
(a `null` standard deviation would be coerced to `0` by JS arithmetic, which
only happens when `m` is itself `null`). -/
noncomputable def bbUpperV2 (closes : List ℚ) : List (Option ℝ) :=
  (List.range closes.length).map (fun i =>
    match (smaO closes 20).getD i none with
    | none => none
    | some m => some ((m : ℝ) + 2 * ((stddevO closes 20).getD i none).getD 0))

/-- V2 `bbLower = ma20Arr.map((m,i) => m === null ? null : m - 2 * sd20Arr[i])`. -/
noncomputable def bbLowerV2 (closes : List ℚ) : List (Option ℝ) :=
  (List.range closes.length).map (fun i =>
    match (smaO closes 20).getD i none with
    | none => none
    | some m => some ((m : ℝ) - 2 * ((stddevO closes 20).getD i none).getD 0))

/-! ### Latest-index indicator values -/

/-- V1 `lastRsi = rsiArr[idx]`. -/
def lastRsiV1 (cs : List Candle) : Option ℚ :=
  (computeRSI (closesOf cs) 14).getD (lastIdx cs) none

/-- V1 `lastA = aArr[idx]` where `vArr = sma(priceChanges, 3)` and
`aArr[i] = i === 0 ? 0 : vArr[i] - vArr[i-1]`. -/
def lastAV1 (cs : List Candle) : ℚ :=
  (jsZeroThenDiffs (sma (jsZeroThenDiffs (closesOf cs)) 3)).getD (lastIdx cs) 0

/-- V1 `lastAtr = atrArr[idx]`. -/
def lastAtrV1 (cs : List Candle) : ℚ :=
  (computeATR (highsOf cs) (lowsOf cs) (closesOf cs) 14).getD (lastIdx cs) 0

/-- V1 `lastLowerBB = lowerBB[idx]`. -/
noncomputable def lastLowerBBV1 (cs : List Candle) : ℝ :=
  (lowerBBV1 (closesOf cs)).getD (lastIdx cs) 0

/-- V1 `lastUpperBB = upperBB[idx]`. -/
noncomputable def lastUpperBBV1 (cs : List Candle) : ℝ :=
  (upperBBV1 (closesOf cs)).getD (lastIdx cs) 0

/-- V2 `lastRsi = rsiArr[idx]`. -/
def lastRsiOV2 (cs : List Candle) : Option ℚ :=
  (rsiFromArray (closesOf cs) 14).getD (lastIdx cs) none

/-- V2 `lastLower = bbLower[idx]`. -/
noncomputable def lastLowerOV2 (cs : List Candle) : Option ℝ :=
  (bbLowerV2 (closesOf cs)).getD (lastIdx cs) none

/-- V2 `lastUpper = bbUpper[idx]`. -/
noncomputable def lastUpperOV2 (cs : List Candle) : Option ℝ :=
  (bbUpperV2 (closesOf cs)).getD (lastIdx cs) none

/-- V2 `lastA = aArr[idx]`. -/
def lastAOV2 (cs : List Candle) : Option ℚ :=
  (aV2 (closesOf cs)).getD (lastIdx cs) none

/-- V2 `lastAtr = atrArr[idx]`. -/
def lastAtrOV2 (cs : List Candle) : Option ℚ :=
  (atrFromCandles (highsOf cs) (lowsOf cs) (closesOf cs) 14).getD (lastIdx cs) none

/-! ### Confidence score (V1 only) -/

/-- V1 confidence: base 70, plus `min(15, 30 - rsi)` (LONG) or
`min(15, rsi - 70)` (SHORT), plus `min(10, |a| / (entry || 1) * 1000)`, plus
5 when `atr / (entry || 1) < 0.005`, then `Math.max(30, Math.min(95,
Math.round(...)))` (`Math.round` rounds half towards `+∞`, as does Mathlib's
`round`).  Nothing in the body can throw over exact arithmetic, so the
surrounding `try/catch` is dead code. -/
def confidenceOf (s : Side) (r a entry atr : ℚ) : ℤ :=
  max 30 (min 95 (round
    ((70 : ℚ) + (if s = Side.long then min 15 (30 - r) else min 15 (r - 70))
      + min 10 (|a| / (if entry = 0 then 1 else entry) * 1000)
      + (if atr / (if entry = 0 then 1 else entry) < 0.005 then (5 : ℚ) else 0))))

/-- The confidence formula exactly as the specification words it ("start at
base 70; add min(15, 30 − RSI) for LONG or min(15, RSI − 70) for SHORT; add
min(10, |acceleration| / entry × 1000); add a flat +5 bonus if ATR/entry <
0.005; rounded to the nearest integer and clamped to [30,95]"), for
comparison with `confidenceOf` above; the spec divides by `entry` itself
rather than by `entry || 1`. -/
def specConfidence (s : Side) (r a entry atr : ℚ) : ℤ :=
  max 30 (min 95 (round
    ((70 : ℚ) + (if s = Side.long then min 15 (30 - r) else min 15 (r - 70))
      + min 10 (|a| / entry * 1000)
      + (if atr / entry < 0.005 then (5 : ℚ) else 0))))

/-! ### Decision engines -/

/-- The signal object returned by V1 `analyzePhysics` (`symbol` is a pure
pass-through string and the `meta` diagnostics are decimal-rounded copies of
values exposed elsewhere; neither carries algorithmic content and both are
omitted). -/
structure SignalV1 where
  side : Side
  entry : ℚ
  tp : ℚ
  sl : ℚ
  rr : Option ℚ
  confidence : ℤ
deriving DecidableEq, Repr

/-- The signal object returned by V2 `analyzePhysics`.  Its `rr` field is
`Number(rr)` where `rr` is number-or-null, and `Number(null) = 0`, so the
field is a plain number. -/
structure SignalV2 where
  side : Side
  entry : ℚ
  tp : ℚ
  sl : ℚ
  rr : ℚ
deriving DecidableEq, Repr

section
open scoped Classical

/-- V1 decision engine (the body of `analyzePhysics` after the fetch).  The
source checks `lastRsi === null || lastLowerBB === null || lastUpperBB ===
null || lastAtr === null`; in this embedding the band and ATR arrays are
number-valued (V1 fills every `null`), so only the RSI check can fire.  The
source sets `side` in two sequential `if` statements (`LONG` first, then
`SHORT`), so the SHORT assignment would win if both conditions held; that
priority is preserved here by testing the SHORT condition first. -/
noncomputable def analyzeCandlesV1 (candles : List Candle) : Option SignalV1 :=
  if candles.length < 40 then none
  else
    match lastRsiV1 candles with
    | none => none
    | some r =>
      let side : Option Side :=
        if r > 70 ∧ ((lastCloseOf candles : ℝ) > lastUpperBBV1 candles) ∧ lastAV1 candles < 0
          then some Side.short
        else if r < 30 ∧ ((lastCloseOf candles : ℝ) < lastLowerBBV1 candles) ∧ lastAV1 candles > 0
          then some Side.long
        else none
      match side with
      | none => none
      | some s =>
        some { side := s
               entry := lastCloseOf candles
               tp := tpOf s (lastCloseOf candles) (lastAtrV1 candles)
               sl := slOf s (lastCloseOf candles) (lastAtrV1 candles)
               rr := Option.map jsToFixed2 (jsOrNull (rr0Of (lastCloseOf candles)
                 (slOf s (lastCloseOf candles) (lastAtrV1 candles))
                 (tpOf s (lastCloseOf candles) (lastAtrV1 candles))))
               confidence := confidenceOf s r (lastAV1 candles) (lastCloseOf candles)
                 (lastAtrV1 candles) }

/-- V2 decision engine (the body of `analyzePhysics` after the fetch): checks
all five latest indicator values for `null`/`undefined` (`NaN` cannot arise
over exact rationals), then applies the LONG rule, `else` the SHORT rule. -/
noncomputable def analyzeCandlesV2 (candles : List Candle) : Option SignalV2 :=
  if candles.length < 40 then none
  else
    match lastRsiOV2 candles, lastLowerOV2 candles, lastUpperOV2 candles,
        lastAOV2 candles, lastAtrOV2 candles with
    | some r, some lo, some hi, some a, some atr =>
      let side : Option Side :=
        if r < 30 ∧ ((lastCloseOf candles : ℝ) < lo) ∧ a > 0 then some Side.long
        else if r > 70 ∧ ((lastCloseOf candles : ℝ) > hi) ∧ a < 0 then some Side.short
        else none
      match side with
      | none => none
      | some s =>
        some { side := s
               entry := lastCloseOf candles
               tp := tpOf s (lastCloseOf candles) atr
               sl := slOf s (lastCloseOf candles) atr
               rr := jsNumberOfNull (jsOrNull (rr0Of (lastCloseOf candles)
                 (slOf s (lastCloseOf candles) atr) (tpOf s (lastCloseOf candles) atr))) }
    | _, _, _, _, _ => none

end

/-! ### Multi-source fetch

The network layer is modelled by handing the fetch functions the list of
per-provider parsed payloads, in the order the providers are tried (V1
shuffles `DATA_SOURCES` first, V2 sorts by priority; either way the loop then
walks the resulting list).  `none` stands for any per-provider failure before
candles exist: network error, timeout, HTTP failure, or a payload shape the
normalizer rejects (all of which `continue` to the next source). -/

/-- `if (candles[0].t > candles[last].t) candles = candles.reverse()`:
ordering is corrected by comparing only the first and last timestamps. -/
def fixOrder (cs : List Candle) : List Candle :=
  match cs.head?, cs.getLast? with
  | some a, some b => if b.t < a.t then cs.reverse else cs
  | _, _ => cs

/-- JS `candles.slice(-limit)`: the last `limit` entries, except that
`slice(-0) = slice(0)` returns the whole list. -/
def jsSliceLast (limit : ℕ) (cs : List Candle) : List Candle :=
  if limit = 0 then cs else cs.drop (cs.length - limit)

/-- One provider attempt of V1 `fetchCandlesFallback`: accept a parsed payload
iff it has at least 30 candles, fixing the ordering and truncating to the most
recent `limit` entries. -/
def acceptV1 (limit : ℕ) : Option (List Candle) → Option (List Candle)
  | none => none
  | some candles =>
      if 30 ≤ candles.length then some (jsSliceLast limit (fixOrder candles)) else none

/-- V1 `fetchCandlesFallback`: first accepted provider wins; throws
(`Except.error`, the `AllSourcesExhausted` condition) only after every
provider failed. -/
def fetchCandlesFallback (limit : ℕ) : List (Option (List Candle)) → Except Unit (List Candle)
  | [] => Except.error ()
  | o :: rest =>
    match acceptV1 limit o with
    | some cs => Except.ok cs
    | none => fetchCandlesFallback limit rest

/-- One provider attempt of V2 `fetchCandlesMulti` (no truncation). -/
def acceptV2 : Option (List Candle) → Option (List Candle)
  | none => none
  | some candles => if 30 ≤ candles.length then some (fixOrder candles) else none

/-- V2 `fetchCandlesMulti`: first accepted provider wins; returns `null`
(not an exception) when every provider failed. -/
def fetchCandlesMulti : List (Option (List Candle)) → Option (List Candle)
  | [] => none
  | o :: rest =>
    match acceptV2 o with
    | some cs => some cs
    | none => fetchCandlesMulti rest

/-- V1 `analyzePhysics`: the whole body is wrapped in `try/catch` with
`catch (err) { return null; }`, so the `AllSourcesExhausted` throw from
`fetchCandlesFallback` is swallowed and surfaces to the caller as `null`;
the returned computation itself never throws (`Except.ok`). -/
noncomputable def analyzePhysicsV1 (limit : ℕ)
    (providers : List (Option (List Candle))) : Except Unit (Option SignalV1) :=
  Except.ok (match fetchCandlesFallback limit providers with
    | Except.error _ => none
    | Except.ok cs => analyzeCandlesV1 cs)

/-- V2 `analyzePhysics`: `fetchCandlesMulti` returns `null` on exhaustion and
the `!candles` guard (together with the surrounding `try/catch`) turns that
into a `null` result. -/
noncomputable def analyzePhysicsV2 (providers : List (Option (List Candle))) : Option SignalV2 :=
  match fetchCandlesMulti providers with
  | none => none
  | some cs => analyzeCandlesV2 cs

/-! ### Concrete evaluation data -/

/-- A closing-price series: flat at 100, then a crash of 40 followed by three
smaller declines.  At the last index (40) this gives RSI = 0 (< 30), a close
of 48 strictly below the lower Bollinger band (mean 1813/20, variance
141611/400), and a positive acceleration 38/3 (the drop three steps back was
larger than the last one). -/
def exCloses : List ℚ := List.replicate 37 (100 : ℚ) ++ [60, 55, 50, 48]

/-- 41 candles over `exCloses` with `high = close + 1` and `low = close - 1`
(so the last ATR is 184915/38416 > 0); both engines emit a LONG signal. -/
def exCandles : List Candle :=
  (List.range 41).map (fun i =>
    let c := exCloses.getD i 0
    { t := (i : ℚ), opn := c, high := c + 1, low := c - 1, close := c, vol := 1 })

/-- The same closes, but every candle's high and low equal the previous close,
so every true range (hence the last ATR) is exactly 0 while the LONG entry
conditions still hold.  (Candle 0's high/low are never read by the
true-range loop.) -/
def exCandles0 : List Candle :=
  (List.range 41).map (fun i =>
    let c := exCloses.getD i 0
    let p := exCloses.getD (i - 1) 0
    { t := (i : ℚ), opn := c, high := p, low := p, close := c, vol := 1 })

/-- The V1 signal emitted on `exCandles`. -/
def exSigV1 : SignalV1 :=
  { side := Side.long, entry := 48, tp := 2398713 / 38416, sl := 3133191 / 76832,
    rr := some 2, confidence := 95 }

/-- The V2 signal emitted on `exCandles`. -/
def exSigV2 : SignalV2 :=
  { side := Side.long, entry := 48, tp := 2398713 / 38416, sl := 3133191 / 76832, rr := 2 }

/-- The V2 signal emitted on the zero-ATR series `exCandles0`: its `rr` field
is the number 0. -/
def exSigV2z : SignalV2 :=
  { side := Side.long, entry := 48, tp := 48, sl := 48, rr := 0 }

/-- A candle that only carries a timestamp (for the fetch-layer claims). -/
def mkFlatCandle (t : ℚ) : Candle :=
  { t := t, opn := 1, high := 1, low := 1, close := 1, vol := 1 }

/-- A 30-candle payload whose first timestamp (0) is below its last (29) but
which contains the inversion 20 > 15 in the middle. -/
def payload30 : List Candle :=
  ((List.range 14).map (fun i => mkFlatCandle (i : ℚ))) ++ [mkFlatCandle 20] ++
    ((List.range 15).map (fun i => mkFlatCandle ((15 + i : ℕ) : ℚ)))

/-- A 30-candle ascending payload. -/
def payloadAsc30 : List Candle := (List.range 30).map (fun i => mkFlatCandle (i : ℚ))

/-- A short strictly descending candle series. -/
def exDesc : List Candle := [mkFlatCandle 3, mkFlatCandle 2, mkFlatCandle 1]

/-- A strictly rising 15-price series (all deltas +1), so the Wilder average
loss is exactly 0 at the first defined RSI index. -/
def exRising : List ℚ := (List.range 15).map (fun i => (i : ℚ))

/-- Executable check that adjacent timestamps are non-decreasing (used to
evaluate `List.Chain'` statements on concrete payloads by kernel reduction). -/
def ascChk : List Candle → Bool
  | a :: b :: rest => decide (a.t ≤ b.t) && ascChk (b :: rest)
  | _ => true

/-- Executable check that adjacent timestamps are strictly decreasing. -/
def descChk : List Candle → Bool
  | a :: b :: rest => decide (b.t < a.t) && descChk (b :: rest)
  | _ => true

/-! ## General lemmas -/


lemma getD_map_range {α : Type _} (f : ℕ → α) (n i : ℕ) (d : α) (h : i < n) :
    ((List.range n).map f).getD i d = f i := by
  rw [List.getD_eq_getElem?_getD, List.getElem?_map, List.getElem?_range h]
  rfl

lemma getD_replicate_append {α : Type _} (n k : ℕ) (d e : α) (l : List α) :
    (List.replicate n e ++ l).getD (n + k) d = l.getD k d := by
  rw [List.getD_eq_getElem?_getD, List.getD_eq_getElem?_getD,
    List.getElem?_append_right (by simp : (List.replicate n e).length ≤ n + k)]
  simp

lemma ascChk_iff : ∀ cs : List Candle, ascChk cs = true ↔ cs.Chain' (fun a b => a.t ≤ b.t)
  | [] => by simp [ascChk]
  | [a] => by simp [ascChk]
  | a :: b :: rest => by
    rw [List.chain'_cons, ← ascChk_iff (b :: rest)]
    simp [ascChk]

lemma descChk_iff : ∀ cs : List Candle, descChk cs = true ↔ cs.Chain' (fun a b => b.t < a.t)
  | [] => by simp [descChk]
  | [a] => by simp [descChk]
  | a :: b :: rest => by
    rw [List.chain'_cons, ← descChk_iff (b :: rest)]
    simp [descChk]

lemma getLast_t_lt_head_t : ∀ (a : Candle) (l : List Candle), l ≠ [] →
    (a :: l).Chain' (fun x y => y.t < x.t) →
    ((a :: l).getLast (List.cons_ne_nil a l)).t < a.t
  | _, [], hl, _ => absurd rfl hl
  | a, b :: m, _, hch => by
    rw [List.getLast_cons (List.cons_ne_nil b m)]
    rw [List.chain'_cons] at hch
    rcases m with _ | ⟨c, m'⟩
    · simpa using hch.1
    · exact lt_trans (getLast_t_lt_head_t b (c :: m') (by simp) hch.2) hch.1

lemma head_t_le_getLast_t : ∀ (a : Candle) (l : List Candle),
    (a :: l).Chain' (fun x y => x.t ≤ y.t) →
    a.t ≤ ((a :: l).getLast (List.cons_ne_nil a l)).t
  | _, [], _ => le_refl _
  | a, b :: m, hch => by
    rw [List.getLast_cons (List.cons_ne_nil b m)]
    rw [List.chain'_cons] at hch
    exact le_trans hch.1 (head_t_le_getLast_t b m hch.2)

lemma fixOrder_of_desc {cs : List Candle} (h : cs.Chain' (fun x y => y.t < x.t)) :
    fixOrder cs = cs.reverse := by
  match cs with
  | [] => rfl
  | [a] => simp [fixOrder]
  | a :: b :: m =>
    have hlast := getLast_t_lt_head_t a (b :: m) (by simp) h
    simp only [fixOrder, List.head?_cons,
      List.getLast?_eq_getLast (a :: b :: m) (by simp)]
    rw [if_pos hlast]

lemma fixOrder_of_asc {cs : List Candle} (h : cs.Chain' (fun x y => x.t ≤ y.t)) :
    fixOrder cs = cs := by
  match cs with
  | [] => rfl
  | [a] => simp [fixOrder]
  | a :: b :: m =>
    have hlast := head_t_le_getLast_t a (b :: m) h
    simp only [fixOrder, List.head?_cons,
      List.getLast?_eq_getLast (a :: b :: m) (by simp)]
    rw [if_neg (not_lt.mpr hlast)]

lemma reverse_asc_of_desc {cs : List Candle} (h : cs.Chain' (fun x y => y.t < x.t)) :
    cs.reverse.Chain' (fun x y => x.t ≤ y.t) := by
  rw [List.chain'_reverse]
  exact h.imp (fun _ _ hab => le_of_lt hab)

lemma fixOrder_reverse_of_desc {cs : List Candle} (h : cs.Chain' (fun x y => y.t < x.t)) :
    fixOrder cs.reverse = cs.reverse :=
  fixOrder_of_asc (reverse_asc_of_desc h)

lemma chain'_drop {α : Type _} {R : α → α → Prop} :
    ∀ (n : ℕ) {l : List α}, List.Chain' R l → List.Chain' R (l.drop n)
  | 0, _, h => h
  | n + 1, l, h => by
    rw [← List.tail_drop]
    exact (chain'_drop n h).tail

lemma fixOrder_head_le_last {cs : List Candle} {a b : Candle}
    (ha : (fixOrder cs).head? = some a) (hb : (fixOrder cs).getLast? = some b) :
    a.t ≤ b.t := by
  match cs with
  | [] => simp [fixOrder] at ha
  | c :: l =>
    simp only [fixOrder, List.head?_cons,
      List.getLast?_eq_getLast (c :: l) (by simp)] at ha hb
    by_cases hp : ((c :: l).getLast (by simp)).t < c.t
    · rw [if_pos hp] at ha hb
      rw [List.head?_reverse, List.getLast?_eq_getLast (c :: l) (by simp)] at ha
      rw [List.getLast?_reverse, List.head?_cons] at hb
      cases ha
      cases hb
      exact le_of_lt hp
    · rw [if_neg hp] at ha hb
      rw [List.head?_cons] at ha
      rw [List.getLast?_eq_getLast (c :: l) (by simp)] at hb
      cases ha
      cases hb
      exact not_lt.mp hp


lemma seedGains_eq (ds : List ℚ) : seedGainsV1 ds = seedGainsV2 ds := by
  unfold seedGainsV1 seedGainsV2
  congr 1
  apply List.map_congr_left
  intro d _
  rcases lt_trichotomy d 0 with h | h | h
  · rw [if_neg (not_le.mpr h), if_neg (not_lt.mpr (le_of_lt h))]
  · subst h
    norm_num
  · rw [if_pos (le_of_lt h), if_pos h]

lemma seedLosses_eq (ds : List ℚ) : seedLossesV1 ds = seedLossesV2 ds := by
  unfold seedLossesV1 seedLossesV2
  congr 1
  apply List.map_congr_left
  intro d _
  rcases lt_trichotomy d 0 with h | h | h
  · rw [if_neg (not_le.mpr h), if_neg (not_lt.mpr (le_of_lt h))]
  · subst h
    norm_num
  · rw [if_pos (le_of_lt h), if_pos h]

lemma wilderAvgs_eq (prices : List ℚ) (period : ℕ) :
    wilderAvgsV1 prices period = wilderAvgsV2 prices period := by
  unfold wilderAvgsV1 wilderAvgsV2
  simp only [seedGains_eq, seedLosses_eq]

lemma rr0_eq_two (s : Side) (entry atr : ℚ) (h : atr ≠ 0) :
    rr0Of entry (slOf s entry atr) (tpOf s entry atr) = 2 := by
  have habs : |atr| ≠ 0 := abs_ne_zero.mpr h
  cases s
  · have h1 : tpOf Side.long entry atr - entry = 3 * atr := by
      rw [tpOf, if_pos rfl]
      ring
    have h2 : entry - slOf Side.long entry atr = (3 / 2) * atr := by
      rw [slOf, if_pos rfl]
      ring
    rw [rr0Of, h1, h2, abs_mul, abs_mul, show |(3 : ℚ)| = 3 by norm_num,
        show |(3 / 2 : ℚ)| = 3 / 2 by norm_num,
        div_eq_iff (mul_ne_zero (by norm_num) habs)]
    ring
  · have h1 : tpOf Side.short entry atr - entry = 3 * -atr := by
      rw [tpOf, if_neg (show ¬ (Side.short = Side.long) by simp)]
      ring
    have h2 : entry - slOf Side.short entry atr = (3 / 2) * -atr := by
      rw [slOf, if_neg (show ¬ (Side.short = Side.long) by simp)]
      ring
    rw [rr0Of, h1, h2, abs_mul, abs_mul, abs_neg, show |(3 : ℚ)| = 3 by norm_num,
        show |(3 / 2 : ℚ)| = 3 / 2 by norm_num,
        div_eq_iff (mul_ne_zero (by norm_num) habs)]
    ring

lemma rr0_eq_zero (s : Side) (entry : ℚ) :
    rr0Of entry (slOf s entry 0) (tpOf s entry 0) = 0 := by
  cases s <;> simp [rr0Of, slOf, tpOf]

set_option maxHeartbeats 1000000 in
lemma analyzeV1_elim {cs : List Candle} {sig : SignalV1}
    (h : analyzeCandlesV1 cs = some sig) :
    ∃ r, lastRsiV1 cs = some r ∧ ∃ s : Side,
      sig = { side := s
              entry := lastCloseOf cs
              tp := tpOf s (lastCloseOf cs) (lastAtrV1 cs)
              sl := slOf s (lastCloseOf cs) (lastAtrV1 cs)
              rr := Option.map jsToFixed2 (jsOrNull (rr0Of (lastCloseOf cs)
                (slOf s (lastCloseOf cs) (lastAtrV1 cs))
                (tpOf s (lastCloseOf cs) (lastAtrV1 cs))))
              confidence := confidenceOf s r (lastAV1 cs) (lastCloseOf cs) (lastAtrV1 cs) } := by
  simp only [analyzeCandlesV1] at h
  split at h
  · exact absurd h (by simp)
  · split at h
    · exact absurd h (by simp)
    · split at h
      · exact absurd h (by simp)
      · rename_i x q hrsi side s hside
        exact ⟨q, hrsi, s, (Option.some.inj h).symm⟩

set_option maxHeartbeats 1000000 in
lemma analyzeV2_elim {cs : List Candle} {sig : SignalV2}
    (h : analyzeCandlesV2 cs = some sig) :
    ∃ r atr, lastRsiOV2 cs = some r ∧ lastAtrOV2 cs = some atr ∧ ∃ s : Side,
      sig = { side := s
              entry := lastCloseOf cs
              tp := tpOf s (lastCloseOf cs) atr
              sl := slOf s (lastCloseOf cs) atr
              rr := jsNumberOfNull (jsOrNull (rr0Of (lastCloseOf cs)
                (slOf s (lastCloseOf cs) atr) (tpOf s (lastCloseOf cs) atr))) } := by
  simp only [analyzeCandlesV2] at h
  split at h
  · exact absurd h (by simp)
  · split at h
    · split at h
      · exact absurd h (by simp)
      · rename_i r lo hi a atr h1 h2 h3 h4 h5 side s hside
        exact ⟨r, atr, h1, h5, s, (Option.some.inj h).symm⟩
    · exact absurd h (by simp)

/-! ## Concrete evaluation lemmas -/

lemma stddevO_ex : (stddevO exCloses 20).getD 40 none
    = some (Real.sqrt ((141611 / 400 : ℚ) : ℝ)) := by
  unfold stddevO
  rw [List.getD_eq_getElem?_getD, List.getElem?_map,
    show (stddevVarO exCloses 20)[40]? = some (some (141611 / 400 : ℚ)) from by decide]
  rfl

lemma lastLowerOV2_ex : lastLowerOV2 exCandles
    = some (((1813 / 20 : ℚ) : ℝ) - 2 * Real.sqrt ((141611 / 400 : ℚ) : ℝ)) := by
  unfold lastLowerOV2 bbLowerV2
  rw [show closesOf exCandles = exCloses from by decide,
      show lastIdx exCandles = 40 from by decide,
      show exCloses.length = 41 from by decide,
      getD_map_range _ _ _ _ (by norm_num),
      show (smaO exCloses 20).getD 40 none = some (1813 / 20 : ℚ) from by decide,
      stddevO_ex]
  rfl

lemma lastUpperOV2_ex : lastUpperOV2 exCandles
    = some (((1813 / 20 : ℚ) : ℝ) + 2 * Real.sqrt ((141611 / 400 : ℚ) : ℝ)) := by
  unfold lastUpperOV2 bbUpperV2
  rw [show closesOf exCandles = exCloses from by decide,
      show lastIdx exCandles = 40 from by decide,
      show exCloses.length = 41 from by decide,
      getD_map_range _ _ _ _ (by norm_num),
      show (smaO exCloses 20).getD 40 none = some (1813 / 20 : ℚ) from by decide,
      stddevO_ex]
  rfl

lemma lastLowerOV2_ex0 : lastLowerOV2 exCandles0
    = some (((1813 / 20 : ℚ) : ℝ) - 2 * Real.sqrt ((141611 / 400 : ℚ) : ℝ)) := by
  unfold lastLowerOV2 bbLowerV2
  rw [show closesOf exCandles0 = exCloses from by decide,
      show lastIdx exCandles0 = 40 from by decide,
      show exCloses.length = 41 from by decide,
      getD_map_range _ _ _ _ (by norm_num),
      show (smaO exCloses 20).getD 40 none = some (1813 / 20 : ℚ) from by decide,
      stddevO_ex]
  rfl

lemma lastUpperOV2_ex0 : lastUpperOV2 exCandles0
    = some (((1813 / 20 : ℚ) : ℝ) + 2 * Real.sqrt ((141611 / 400 : ℚ) : ℝ)) := by
  unfold lastUpperOV2 bbUpperV2
  rw [show closesOf exCandles0 = exCloses from by decide,
      show lastIdx exCandles0 = 40 from by decide,
      show exCloses.length = 41 from by decide,
      getD_map_range _ _ _ _ (by norm_num),
      show (smaO exCloses 20).getD 40 none = some (1813 / 20 : ℚ) from by decide,
      stddevO_ex]
  rfl

lemma band_lt_ex : ((48 : ℚ) : ℝ)
    < ((1813 / 20 : ℚ) : ℝ) - 2 * Real.sqrt ((141611 / 400 : ℚ) : ℝ) := by
  have h1 : Real.sqrt ((141611 / 400 : ℚ) : ℝ) < 853 / 40 := by
    rw [show (((141611 / 400 : ℚ)) : ℝ) = 141611 / 400 by push_cast; ring]
    rw [Real.sqrt_lt' (by norm_num)]
    norm_num
  push_cast
  linarith

lemma analyzeV2_ex : analyzeCandlesV2 exCandles = some exSigV2 := by
  simp only [analyzeCandlesV2,
      show lastRsiOV2 exCandles = some 0 from by decide,
      lastLowerOV2_ex, lastUpperOV2_ex,
      show lastAOV2 exCandles = some (38 / 3 : ℚ) from by decide,
      show lastAtrOV2 exCandles = some (184915 / 38416 : ℚ) from by decide]
  rw [if_neg (by decide : ¬ (exCandles.length < 40))]
  rw [if_pos (⟨by norm_num, band_lt_ex, by norm_num⟩ :
    (0 : ℚ) < 30 ∧ ((lastCloseOf exCandles : ℝ)
      < ((1813 / 20 : ℚ) : ℝ) - 2 * Real.sqrt ((141611 / 400 : ℚ) : ℝ)) ∧ (38 / 3 : ℚ) > 0)]
  decide

lemma analyzeV2_ex0 : analyzeCandlesV2 exCandles0 = some exSigV2z := by
  simp only [analyzeCandlesV2,
      show lastRsiOV2 exCandles0 = some 0 from by decide,
      lastLowerOV2_ex0, lastUpperOV2_ex0,
      show lastAOV2 exCandles0 = some (38 / 3 : ℚ) from by decide,
      show lastAtrOV2 exCandles0 = some 0 from by decide]
  rw [if_neg (by decide : ¬ (exCandles0.length < 40))]
  rw [if_pos (⟨by norm_num, band_lt_ex, by norm_num⟩ :
    (0 : ℚ) < 30 ∧ ((lastCloseOf exCandles0 : ℝ)
      < ((1813 / 20 : ℚ) : ℝ) - 2 * Real.sqrt ((141611 / 400 : ℚ) : ℝ)) ∧ (38 / 3 : ℚ) > 0)]
  decide

lemma rollingStd_ex : (rollingStd exCloses 20).getD 40 0
    = Real.sqrt ((141611 / 400 : ℚ) : ℝ) := by
  unfold rollingStd
  rw [List.getD_eq_getElem?_getD, List.getElem?_map,
    show (rollingVar exCloses 20)[40]? = some (141611 / 400 : ℚ) from by decide]
  rfl

lemma lastLowerBBV1_ex : lastLowerBBV1 exCandles
    = ((1813 / 20 : ℚ) : ℝ) - 2 * Real.sqrt ((141611 / 400 : ℚ) : ℝ) := by
  unfold lastLowerBBV1 lowerBBV1
  rw [show closesOf exCandles = exCloses from by decide,
      show lastIdx exCandles = 40 from by decide,
      show exCloses.length = 41 from by decide,
      getD_map_range _ _ _ _ (by norm_num),
      show (sma exCloses 20).getD 40 0 = (1813 / 20 : ℚ) from by decide,
      rollingStd_ex]

lemma analyzeV1_ex : analyzeCandlesV1 exCandles = some exSigV1 := by
  simp only [analyzeCandlesV1,
      show lastRsiV1 exCandles = some 0 from by decide,
      show lastAV1 exCandles = (38 / 3 : ℚ) from by decide,
      show lastAtrV1 exCandles = (184915 / 38416 : ℚ) from by decide,
      lastLowerBBV1_ex]
  rw [if_neg (by decide : ¬ (exCandles.length < 40))]
  rw [if_neg (fun h => absurd h.1 (by norm_num) :
    ¬ ((0 : ℚ) > 70 ∧ ((lastCloseOf exCandles : ℝ) > lastUpperBBV1 exCandles)
      ∧ (38 / 3 : ℚ) < 0))]
  rw [if_pos (⟨by norm_num, band_lt_ex, by norm_num⟩ :
    (0 : ℚ) < 30 ∧ ((lastCloseOf exCandles : ℝ)
      < ((1813 / 20 : ℚ) : ℝ) - 2 * Real.sqrt ((141611 / 400 : ℚ) : ℝ)) ∧ (38 / 3 : ℚ) > 0)]
  decide

/-! ## Claims -/

/-- Claim C1 (amended): whenever the Wilder running average loss is exactly
zero at a defined RSI index, V2's `rsiFromArray` yields exactly 100 there,
while V1's `computeRSI` yields `100 - 100/101 = 10000/101` (saturating near
100, still no division fault). -/
theorem claim_C1_amended :
    ∀ (closes : List ℚ) (k : ℕ) (g l : ℚ),
      15 ≤ closes.length →
      k < (wilderAvgsV2 closes 14).length →
      (wilderAvgsV2 closes 14).getD k (0, 1) = (g, l) →
      l = 0 →
      (rsiFromArray closes 14).getD (14 + k) none = some 100 ∧
      (computeRSI closes 14).getD (14 + k) none = some (10000 / 101) := by
  intro closes k g l hlen hk hgl hl0
  subst hl0
  have hdl : (deltasOf closes).length = closes.length - 1 := by
    simp [deltasOf]
  have hd14 : ¬ ((deltasOf closes).length < 14) := by omega
  have hp15 : ¬ (closes.length < 14 + 1) := by omega
  have hget : (wilderAvgsV2 closes 14)[k]? = some (g, 0) := by
    rw [List.getElem?_eq_getElem hk]
    congr 1
    rw [← hgl, List.getD_eq_getElem?_getD, List.getElem?_eq_getElem hk]
    rfl
  constructor
  · rw [rsiFromArray, if_neg hd14, getD_replicate_append, List.getD_eq_getElem?_getD,
        List.getElem?_map, hget]
    simp
  · rw [computeRSI, if_neg hp15, getD_replicate_append, List.getD_eq_getElem?_getD,
        List.getElem?_map, wilderAvgs_eq, hget]
    norm_num

/-- Claim C1 (counterexample): on the strictly rising series `exRising` the
average loss at the first RSI index is 0, and `computeRSI` produces
`10000/101 ≠ 100` there. -/
theorem claim_C1_counterexample :
    (wilderAvgsV2 exRising 14).getD 0 (0, 1) = (1, 0) ∧
    (computeRSI exRising 14).getD 14 none = some (10000 / 101) ∧
    ((10000 / 101 : ℚ) ≠ 100) := by
  decide

/-- Claim C1 (witness): the amended theorem applied to `exRising`. -/
theorem claim_C1_witness :
    (rsiFromArray exRising 14).getD (14 + 0) none = some 100 ∧
    (computeRSI exRising 14).getD (14 + 0) none = some (10000 / 101) :=
  claim_C1_amended exRising 0 1 0 (by decide) (by decide) (by decide) rfl

/-- Claim C2 (amended): V2's rolling SMA and rolling population standard
deviation are `null` exactly at the indices whose trailing window cannot be
filled; V1's rolling SMA instead returns the partial mean over the values
available so far, and V1's rolling standard deviation the partial population
deviation (square root of the partial variance) over that same shorter
window — never an undefined entry. -/
theorem claim_C2_amended :
    (∀ (arr : List ℚ) (len i : ℕ), i < arr.length →
      ((smaO arr len).getD i (some 0) = none ↔ i + 1 < len)) ∧
    (∀ (arr : List ℚ) (len i : ℕ), i < arr.length →
      ((stddevO arr len).getD i (some 0) = none ↔ i + 1 < len)) ∧
    (∀ (arr : List ℚ) (period i : ℕ), i < arr.length → i + 1 ≤ period →
      (sma arr period).getD i 0 = (arr.take (i + 1)).sum / ((i + 1 : ℕ) : ℚ)) ∧
    (∀ (arr : List ℚ) (period i : ℕ), i < arr.length → i + 1 ≤ period →
      (rollingVar arr period).getD i 0 =
        ((arr.take (i + 1)).map
            (fun b => (b - (arr.take (i + 1)).sum / ((i + 1 : ℕ) : ℚ)) ^ 2)).sum
          / ((i + 1 : ℕ) : ℚ)) ∧
    (∀ (arr : List ℚ) (period i : ℕ), i < arr.length →
      (rollingStd arr period).getD i 0 = Real.sqrt ((rollingVar arr period).getD i 0)) := by
  refine ⟨?_, ?_, ?_, ?_, ?_⟩
  · intro arr len i hi
    unfold smaO
    rw [getD_map_range _ _ _ _ hi]
    by_cases h : i + 1 < len <;> simp [h]
  · intro arr len i hi
    unfold stddevO stddevVarO
    rw [List.getD_eq_getElem?_getD, List.getElem?_map, List.getElem?_map,
        List.getElem?_range hi]
    by_cases h : i + 1 < len <;> simp [h]
  · intro arr period i hi hle
    unfold sma
    rw [getD_map_range _ _ _ _ hi]
    simp only [Nat.sub_eq_zero_of_le hle, List.drop_zero, List.length_take,
      min_eq_left (by omega : i + 1 ≤ arr.length)]
  · intro arr period i hi hle
    unfold rollingVar
    rw [getD_map_range _ _ _ _ hi]
    simp only [Nat.sub_eq_zero_of_le hle, List.drop_zero, List.length_take,
      min_eq_left (by omega : i + 1 ≤ arr.length)]
  · intro arr period i hi
    have hi' : i < (rollingVar arr period).length := by
      simpa [rollingVar] using hi
    unfold rollingStd
    rw [List.getD_eq_getElem?_getD, List.getD_eq_getElem?_getD, List.getElem?_map,
        List.getElem?_eq_getElem hi']
    rfl

/-- Claim C2 (counterexample): V1's `sma` at index 1 with period 20 (window
unfillable) returns the partial mean 2 of the two available values, not an
undefined entry. -/
theorem claim_C2_counterexample :
    (sma [(1 : ℚ), 3] 20).getD 1 0 = 2 ∧ 1 + 1 < 20 ∧
      ((2 : ℚ) = ([(1 : ℚ), 3].take 2).sum / 2) := by
  decide

/-- Claim C2 (witness): the amended theorem applied to concrete arrays. -/
theorem claim_C2_witness :
    ((smaO [(1 : ℚ), 3] 20).getD 1 (some 0) = none) ∧
    ((stddevO [(1 : ℚ), 3] 20).getD 1 (some 0) = none) ∧
    (sma [(5 : ℚ)] 20).getD 0 0 = ([(5 : ℚ)].take (0 + 1)).sum / ((0 + 1 : ℕ) : ℚ) ∧
    (rollingVar [(1 : ℚ), 3] 20).getD 1 0 =
      (([(1 : ℚ), 3].take (1 + 1)).map
          (fun b => (b - ([(1 : ℚ), 3].take (1 + 1)).sum / ((1 + 1 : ℕ) : ℚ)) ^ 2)).sum
        / ((1 + 1 : ℕ) : ℚ) ∧
    (rollingStd [(1 : ℚ), 3] 20).getD 1 0 =
      Real.sqrt ((rollingVar [(1 : ℚ), 3] 20).getD 1 0) :=
  ⟨(claim_C2_amended.1 [(1 : ℚ), 3] 20 1 (by norm_num)).mpr (by norm_num),
   (claim_C2_amended.2.1 [(1 : ℚ), 3] 20 1 (by norm_num)).mpr (by norm_num),
   claim_C2_amended.2.2.1 [(5 : ℚ)] 20 0 (by norm_num) (by norm_num),
   claim_C2_amended.2.2.2.1 [(1 : ℚ), 3] 20 1 (by norm_num) (by norm_num),
   claim_C2_amended.2.2.2.2 [(1 : ℚ), 3] 20 1 (by norm_num)⟩

/-- Claim C3 (amended): every per-provider failure is swallowed and the next
provider tried; the V1 fetcher's AllSourcesExhausted throw happens iff every
provider failed; but `analyzePhysics` catches that throw and returns null, so
the error is never raised to *its* caller, and the V2 fetcher returns null
instead of throwing. -/
theorem claim_C3_amended :
    (∀ (limit : ℕ) (o : Option (List Candle)) (rest : List (Option (List Candle))),
      acceptV1 limit o = none →
      fetchCandlesFallback limit (o :: rest) = fetchCandlesFallback limit rest) ∧
    (∀ (limit : ℕ) (providers : List (Option (List Candle))),
      fetchCandlesFallback limit providers = Except.error () ↔
        ∀ o ∈ providers, acceptV1 limit o = none) ∧
    (∀ (limit : ℕ) (providers : List (Option (List Candle))),
      analyzePhysicsV1 limit providers ≠ Except.error ()) ∧
    (∀ providers : List (Option (List Candle)),
      fetchCandlesMulti providers = none ↔ ∀ o ∈ providers, acceptV2 o = none) := by
  refine ⟨?_, ?_, ?_, ?_⟩
  · intro limit o rest h
    simp [fetchCandlesFallback, h]
  · intro limit providers
    induction providers with
    | nil => simp [fetchCandlesFallback]
    | cons o rest ih =>
      cases h : acceptV1 limit o with
      | some cs => simp [fetchCandlesFallback, h]
      | none => simp [fetchCandlesFallback, h, ih]
  · intro limit providers
    simp [analyzePhysicsV1]
  · intro providers
    induction providers with
    | nil => simp [fetchCandlesMulti]
    | cons o rest ih =>
      cases h : acceptV2 o with
      | some cs => simp [fetchCandlesMulti, h]
      | none => simp [fetchCandlesMulti, h, ih]

/-- Claim C3 (counterexample): with every provider failing, `analyzePhysics`
returns `ok none` — the AllSourcesExhausted error is not raised to its
caller, against the "raised iff every provider failed" reading. -/
theorem claim_C3_counterexample :
    (∀ o ∈ ([none, none] : List (Option (List Candle))), acceptV1 200 o = none) ∧
    analyzePhysicsV1 200 [none, none] = Except.ok none := by
  constructor
  · intro o ho
    simp only [List.mem_cons, List.not_mem_nil, or_false] at ho
    rcases ho with rfl | rfl <;> rfl
  · rfl

/-- Claim C3 (witness): the amended theorem at concrete provider lists. -/
theorem claim_C3_witness :
    fetchCandlesFallback 200 [none] = Except.error () ∧
    analyzePhysicsV1 200 [none] ≠ Except.error () ∧
    fetchCandlesMulti [none] = none ∧
    fetchCandlesFallback 120 (none :: [some payloadAsc30])
      = fetchCandlesFallback 120 [some payloadAsc30] :=
  ⟨(claim_C3_amended.2.1 200 [none]).mpr (by
      intro o ho
      simp only [List.mem_singleton] at ho
      subst ho
      rfl),
   claim_C3_amended.2.2.1 200 [none],
   (claim_C3_amended.2.2.2 [none]).mpr (by
      intro o ho
      simp only [List.mem_singleton] at ho
      subst ho
      rfl),
   claim_C3_amended.1 120 none [some payloadAsc30] rfl⟩

/-- Claim C4: with fewer than 40 candles, or with an undefined latest-index
indicator value, both decision engines return no-signal; the engines are
total functions here, which models "never raises".  Non-finite values cannot
arise over exact rationals, and V1's band/ATR arrays are number-valued (V1
fills every null), so for V1 only the RSI nullability check is non-vacuous. -/
theorem claim_C4 :
    (∀ cs : List Candle, cs.length < 40 →
      analyzeCandlesV1 cs = none ∧ analyzeCandlesV2 cs = none) ∧
    (∀ cs : List Candle, lastRsiV1 cs = none → analyzeCandlesV1 cs = none) ∧
    (∀ cs : List Candle,
      lastRsiOV2 cs = none ∨ lastLowerOV2 cs = none ∨ lastUpperOV2 cs = none ∨
        lastAOV2 cs = none ∨ lastAtrOV2 cs = none → analyzeCandlesV2 cs = none) := by
  refine ⟨fun cs h => ⟨?_, ?_⟩, fun cs h => ?_, fun cs h => ?_⟩
  · simp [analyzeCandlesV1, h]
  · simp [analyzeCandlesV2, h]
  · by_cases hl : cs.length < 40
    · simp [analyzeCandlesV1, hl]
    · simp [analyzeCandlesV1, hl, h]
  · by_cases hl : cs.length < 40
    · simp [analyzeCandlesV2, hl]
    · simp only [analyzeCandlesV2, if_neg hl]
      split
      · rcases h with h | h | h | h | h <;> simp_all
      · rfl

/-- Claim C4 (witness): both engines return no-signal on the empty series. -/
theorem claim_C4_witness :
    analyzeCandlesV1 [] = none ∧ analyzeCandlesV2 [] = none :=
  claim_C4.1 [] (by norm_num)

/-- Claim C5: every emitted signal has entry = last close, LONG stop-loss
`entry - 1.5*ATR` and take-profit `entry + 3.0*ATR`, SHORT stop-loss
`entry + 1.5*ATR` and take-profit `entry - 3.0*ATR`; and at entry=100, ATR=2,
LONG the derived levels are 97, 106 with risk-reward 2.00. -/
theorem claim_C5 :
    (∀ (cs : List Candle) (sig : SignalV1), analyzeCandlesV1 cs = some sig →
      sig.entry = lastCloseOf cs ∧
      (sig.side = Side.long →
        sig.sl = sig.entry - 1.5 * lastAtrV1 cs ∧ sig.tp = sig.entry + 3.0 * lastAtrV1 cs) ∧
      (sig.side = Side.short →
        sig.sl = sig.entry + 1.5 * lastAtrV1 cs ∧ sig.tp = sig.entry - 3.0 * lastAtrV1 cs)) ∧
    (∀ (cs : List Candle) (sig : SignalV2) (atr : ℚ),
      analyzeCandlesV2 cs = some sig → lastAtrOV2 cs = some atr →
      sig.entry = lastCloseOf cs ∧
      (sig.side = Side.long → sig.sl = sig.entry - 1.5 * atr ∧ sig.tp = sig.entry + 3.0 * atr) ∧
      (sig.side = Side.short → sig.sl = sig.entry + 1.5 * atr ∧ sig.tp = sig.entry - 3.0 * atr)) ∧
    (slOf Side.long 100 2 = 97 ∧ tpOf Side.long 100 2 = 106 ∧
      jsToFixed2 (rr0Of 100 (slOf Side.long 100 2) (tpOf Side.long 100 2)) = 2) := by
  refine ⟨?_, ?_, by decide⟩
  · intro cs sig h
    obtain ⟨r, hr, s, rfl⟩ := analyzeV1_elim h
    refine ⟨rfl, fun hs => ?_, fun hs => ?_⟩
    · cases s
      · exact ⟨by simp [slOf], by simp [tpOf]⟩
      · simp at hs
    · cases s
      · simp at hs
      · exact ⟨by simp [slOf], by simp [tpOf]⟩
  · intro cs sig atr h hatr
    obtain ⟨r, atr', hr, h5, s, rfl⟩ := analyzeV2_elim h
    obtain rfl : atr = atr' := (Option.some.inj (h5.symm.trans hatr)).symm
    refine ⟨rfl, fun hs => ?_, fun hs => ?_⟩
    · cases s
      · exact ⟨by simp [slOf], by simp [tpOf]⟩
      · simp at hs
    · cases s
      · simp at hs
      · exact ⟨by simp [slOf], by simp [tpOf]⟩

/-- Claim C5 (witness): the level formulas at the emitted signals on
`exCandles`. -/
theorem claim_C5_witness :
    (exSigV1.sl = exSigV1.entry - 1.5 * lastAtrV1 exCandles ∧
      exSigV1.tp = exSigV1.entry + 3.0 * lastAtrV1 exCandles) ∧
    (exSigV2.sl = exSigV2.entry - 1.5 * (184915 / 38416) ∧
      exSigV2.tp = exSigV2.entry + 3.0 * (184915 / 38416)) :=
  ⟨(claim_C5.1 exCandles exSigV1 analyzeV1_ex).2.1 rfl,
   (claim_C5.2.1 exCandles exSigV2 (184915 / 38416) analyzeV2_ex (by decide)).2.1 rfl⟩

/-- Claim C6: the confidence score (V1 only; V2 emits no confidence) is an
integer clamped to [30, 95]; it matches the spec formula whenever entry is
nonzero (the code divides by `entry || 1`, the spec by `entry`); and every
emitted V1 signal carries exactly the code's confidence value. -/
theorem claim_C6 :
    (∀ (s : Side) (r a entry atr : ℚ),
      (30 : ℤ) ≤ confidenceOf s r a entry atr ∧ confidenceOf s r a entry atr ≤ 95) ∧
    (∀ (s : Side) (r a entry atr : ℚ), entry ≠ 0 →
      confidenceOf s r a entry atr = specConfidence s r a entry atr) ∧
    (∀ (cs : List Candle) (sig : SignalV1), analyzeCandlesV1 cs = some sig →
      ∃ r, lastRsiV1 cs = some r ∧
        sig.confidence = confidenceOf sig.side r (lastAV1 cs) (lastCloseOf cs) (lastAtrV1 cs)) := by
  refine ⟨?_, ?_, ?_⟩
  · intro s r a entry atr
    exact ⟨le_max_left _ _, max_le (by norm_num) (min_le_left _ _)⟩
  · intro s r a entry atr h
    simp [confidenceOf, specConfidence, h]
  · intro cs sig h
    obtain ⟨r, hr, s, rfl⟩ := analyzeV1_elim h
    exact ⟨r, hr, rfl⟩

/-- Claim C6 (witness): the confidence bounds and formulas at the emitted
signal on `exCandles` (RSI 0, acceleration 38/3, entry 48, ATR
184915/38416, confidence 95). -/
theorem claim_C6_witness :
    ((30 : ℤ) ≤ confidenceOf Side.long 0 (38 / 3) 48 (184915 / 38416) ∧
      confidenceOf Side.long 0 (38 / 3) 48 (184915 / 38416) ≤ 95) ∧
    confidenceOf Side.long 0 (38 / 3) 48 (184915 / 38416)
      = specConfidence Side.long 0 (38 / 3) 48 (184915 / 38416) ∧
    exSigV1.confidence
      = confidenceOf exSigV1.side 0 (lastAV1 exCandles) (lastCloseOf exCandles)
          (lastAtrV1 exCandles) := by
  refine ⟨claim_C6.1 Side.long 0 (38 / 3) 48 (184915 / 38416),
          claim_C6.2.1 Side.long 0 (38 / 3) 48 (184915 / 38416) (by norm_num), ?_⟩
  obtain ⟨r, hr, hc⟩ := claim_C6.2.2 exCandles exSigV1 analyzeV1_ex
  obtain rfl : (0 : ℚ) = r :=
    Option.some.inj ((show lastRsiV1 exCandles = some 0 from by decide).symm.trans hr)
  exact hc

/-- Claim C7 (amended): for every emitted signal the risk-reward derives from
`|tp - entry| / |entry - sl|`; when the denominator vanishes (ATR = 0), V1's
`rr` field is null as the claim states, but V2 coerces the internal null with
`Number(null) = 0`, so V2's `rr` field is the number 0, not null.  Neither
raises. -/
theorem claim_C7_amended :
    (∀ (cs : List Candle) (sig : SignalV1), analyzeCandlesV1 cs = some sig →
      (lastAtrV1 cs ≠ 0 → sig.rr = some (rr0Of sig.entry sig.sl sig.tp)) ∧
      (lastAtrV1 cs = 0 → sig.rr = none)) ∧
    (∀ (cs : List Candle) (sig : SignalV2) (atr : ℚ),
      analyzeCandlesV2 cs = some sig → lastAtrOV2 cs = some atr →
      (atr ≠ 0 → sig.rr = rr0Of sig.entry sig.sl sig.tp) ∧
      (atr = 0 → sig.rr = 0 ∧ sig.sl = sig.entry ∧ sig.tp = sig.entry)) := by
  constructor
  · intro cs sig h
    obtain ⟨r, hr, s, rfl⟩ := analyzeV1_elim h
    constructor
    · intro hz
      have h2 := rr0_eq_two s (lastCloseOf cs) (lastAtrV1 cs) hz
      simp only [h2]
      decide
    · intro hz
      rw [hz]
      simp only [rr0_eq_zero]
      decide
  · intro cs sig atr h hatr
    obtain ⟨r, atr', hr, h5, s, rfl⟩ := analyzeV2_elim h
    obtain rfl : atr = atr' := (Option.some.inj (h5.symm.trans hatr)).symm
    constructor
    · intro hz
      have h2 := rr0_eq_two s (lastCloseOf cs) atr hz
      simp only [h2]
      decide
    · intro hz
      subst hz
      refine ⟨?_, ?_, ?_⟩
      · simp only [rr0_eq_zero]
        decide
      · cases s <;> norm_num [slOf]
      · cases s <;> norm_num [tpOf]

/-- Claim C7 (counterexample): on the zero-true-range series `exCandles0`,
V2 emits a LONG signal with last ATR 0 whose `rr` field is the number 0 —
not null/undefined as the claim requires. -/
theorem claim_C7_counterexample :
    analyzeCandlesV2 exCandles0 = some exSigV2z ∧
    lastAtrOV2 exCandles0 = some 0 ∧ exSigV2z.rr = 0 :=
  ⟨analyzeV2_ex0, by decide, rfl⟩

/-- Claim C7 (witness): the amended theorem at the emitted signals on
`exCandles` (nonzero ATR) and `exCandles0` (zero ATR). -/
theorem claim_C7_witness :
    exSigV1.rr = some (rr0Of exSigV1.entry exSigV1.sl exSigV1.tp) ∧
    exSigV2.rr = rr0Of exSigV2.entry exSigV2.sl exSigV2.tp ∧
    exSigV2z.rr = 0 :=
  ⟨(claim_C7_amended.1 exCandles exSigV1 analyzeV1_ex).1 (by decide),
   (claim_C7_amended.2 exCandles exSigV2 (184915 / 38416) analyzeV2_ex (by decide)).1
     (by norm_num),
   ((claim_C7_amended.2 exCandles0 exSigV2z 0 analyzeV2_ex0 (by decide)).2 rfl).1⟩

/-- Claim C8: a strictly reverse-chronological series normalizes to exactly
the same ascending series as its already-ascending reversal, and the
decision pipeline gives identical output on both. -/
theorem claim_C8 :
    ∀ (cs : List Candle) (limit : ℕ), cs.Chain' (fun a b => b.t < a.t) →
      fixOrder cs = cs.reverse ∧
      fixOrder cs.reverse = cs.reverse ∧
      analyzeCandlesV1 (jsSliceLast limit (fixOrder cs))
        = analyzeCandlesV1 (jsSliceLast limit (fixOrder cs.reverse)) ∧
      analyzeCandlesV2 (fixOrder cs) = analyzeCandlesV2 (fixOrder cs.reverse) := by
  intro cs limit h
  rw [fixOrder_of_desc h, fixOrder_reverse_of_desc h]
  exact ⟨rfl, rfl, rfl, rfl⟩

/-- Claim C8 (witness): the theorem at a concrete descending series. -/
theorem claim_C8_witness :
    fixOrder exDesc = exDesc.reverse ∧
    fixOrder exDesc.reverse = exDesc.reverse ∧
    analyzeCandlesV1 (jsSliceLast 120 (fixOrder exDesc))
      = analyzeCandlesV1 (jsSliceLast 120 (fixOrder exDesc.reverse)) ∧
    analyzeCandlesV2 (fixOrder exDesc) = analyzeCandlesV2 (fixOrder exDesc.reverse) :=
  claim_C8 exDesc 120 ((descChk_iff exDesc).mp (by decide))

/-- Claim C9 (amended): normalization only compares the first and last
timestamps, so an accepted payload is returned fully ascending whenever the
payload was timestamp-monotone (ascending stays put, strictly descending is
reversed — also after V1's `slice(-limit)` truncation); in general only
"first timestamp ≤ last timestamp" is guaranteed, not adjacent-pair order. -/
theorem claim_C9_amended :
    (∀ (cs res : List Candle), acceptV2 (some cs) = some res →
      ∀ a b, res.head? = some a → res.getLast? = some b → a.t ≤ b.t) ∧
    (∀ (cs res : List Candle), cs.Chain' (fun a b => a.t ≤ b.t) →
      acceptV2 (some cs) = some res → res.Chain' (fun a b => a.t ≤ b.t)) ∧
    (∀ (cs res : List Candle), cs.Chain' (fun a b => b.t < a.t) →
      acceptV2 (some cs) = some res → res.Chain' (fun a b => a.t ≤ b.t)) ∧
    (∀ (limit : ℕ) (cs res : List Candle), cs.Chain' (fun a b => a.t ≤ b.t) →
      acceptV1 limit (some cs) = some res → res.Chain' (fun a b => a.t ≤ b.t)) ∧
    (∀ (limit : ℕ) (cs res : List Candle), cs.Chain' (fun a b => b.t < a.t) →
      acceptV1 limit (some cs) = some res → res.Chain' (fun a b => a.t ≤ b.t)) := by
  have hacc2 : ∀ cs res : List Candle, acceptV2 (some cs) = some res → res = fixOrder cs := by
    intro cs res h
    simp only [acceptV2] at h
    split at h
    · exact (Option.some.inj h).symm
    · exact absurd h (by simp)
  have hacc1 : ∀ (limit : ℕ) (cs res : List Candle),
      acceptV1 limit (some cs) = some res → res = jsSliceLast limit (fixOrder cs) := by
    intro limit cs res h
    simp only [acceptV1] at h
    split at h
    · exact (Option.some.inj h).symm
    · exact absurd h (by simp)
  refine ⟨?_, ?_, ?_, ?_, ?_⟩
  · intro cs res hacc a b ha hb
    obtain rfl := hacc2 cs res hacc
    exact fixOrder_head_le_last ha hb
  · intro cs res hch hacc
    obtain rfl := hacc2 cs res hacc
    rw [fixOrder_of_asc hch]
    exact hch
  · intro cs res hch hacc
    obtain rfl := hacc2 cs res hacc
    rw [fixOrder_of_desc hch]
    exact reverse_asc_of_desc hch
  · intro limit cs res hch hacc
    obtain rfl := hacc1 limit cs res hacc
    rw [fixOrder_of_asc hch]
    unfold jsSliceLast
    split
    · exact hch
    · exact chain'_drop _ hch
  · intro limit cs res hch hacc
    obtain rfl := hacc1 limit cs res hacc
    rw [fixOrder_of_desc hch]
    unfold jsSliceLast
    split
    · exact reverse_asc_of_desc hch
    · exact chain'_drop _ (reverse_asc_of_desc hch)

/-- Claim C9 (counterexample): a 30-candle payload with first timestamp 0,
last 29, but an inversion (…, 20, 15, …) in the middle is accepted by the
fetcher and returned unchanged — not ascending at every adjacent pair. -/
theorem claim_C9_counterexample :
    fetchCandlesMulti [some payload30] = some payload30 ∧
    ¬ payload30.Chain' (fun a b => a.t ≤ b.t) :=
  ⟨by decide, fun hch => absurd ((ascChk_iff payload30).mpr hch) (by decide)⟩

/-- Claim C9 (witness): the amended theorem at a concrete sorted payload. -/
theorem claim_C9_witness : payloadAsc30.Chain' (fun a b => a.t ≤ b.t) :=
  claim_C9_amended.2.1 payloadAsc30 payloadAsc30
    ((ascChk_iff payloadAsc30).mp (by decide)) (by decide)

/-- Claim C10: every emitted signal with strictly positive last ATR has
risk-reward exactly 2 (V1 stores it as `some 2` after two-decimal rounding,
V2 as the number 2), for both LONG and SHORT, because take-profit and
stop-loss scale the same ATR by 3.0 and 1.5. -/
theorem claim_C10 :
    (∀ (cs : List Candle) (sig : SignalV1), analyzeCandlesV1 cs = some sig →
      0 < lastAtrV1 cs → sig.rr = some 2) ∧
    (∀ (cs : List Candle) (sig : SignalV2) (atr : ℚ),
      analyzeCandlesV2 cs = some sig → lastAtrOV2 cs = some atr → 0 < atr →
      sig.rr = 2) := by
  constructor
  · intro cs sig h hpos
    obtain ⟨r, hr, s, rfl⟩ := analyzeV1_elim h
    have h2 := rr0_eq_two s (lastCloseOf cs) (lastAtrV1 cs) (ne_of_gt hpos)
    simp only [h2]
    decide
  · intro cs sig atr h hatr hpos
    obtain ⟨r, atr', hr, h5, s, rfl⟩ := analyzeV2_elim h
    obtain rfl : atr = atr' := (Option.some.inj (h5.symm.trans hatr)).symm
    have h2 := rr0_eq_two s (lastCloseOf cs) atr (ne_of_gt hpos)
    simp only [h2]
    decide

/-- Claim C10 (witness): the theorem at the emitted signals on `exCandles`,
whose last ATR is 184915/38416 > 0. -/
theorem claim_C10_witness :
    exSigV1.rr = some 2 ∧ exSigV2.rr = 2 :=
  ⟨claim_C10.1 exCandles exSigV1 analyzeV1_ex (by decide),
   claim_C10.2 exCandles exSigV2 (184915 / 38416) analyzeV2_ex (by decide) (by norm_num)⟩

end PhysicsMomentum
